import Mathlib

/-!
Verification development for the anon-identity-mobile identity engine.

The development shallowly embeds the identity pipeline of the repository:
the QR payload parser (QRScannerService.parseQRData and its helpers), the
credential detector and extractor (AnonIdentityService.isVerifiableCredential,
extractIdentityFromCredential), the validation rule engine
(IdentityValidationService) and the reconciliation and merge engine
(IdentityFetchService.mergeCredentialData, fetchAndPopulateIdentity,
createVerifiablePresentation).

Host-language values are modelled by the inductive type JSValue. Machine
reals of the host language are modelled by exact fractions carried as a
numerator and a positive denominator (the arithmetic the code performs,
parsing decimal literals and rounding small integer ratios, is exact in
both representations).
Strict equality on composite values is reference equality in the host
language; two independently obtained composites compare unequal, which is
the behaviour modelled here. Host wall-clock reads (Date.now,
new Date().toISOString()) are explicit parameters of the embedded
functions. Exceptions are modelled with Except / Option.
-/

/-- An exact host-language number: the fraction num over den, den
positive by construction at every use site. -/
structure JsonNum where
  num : Int
  den : Nat

/-- Model of a host-language (JavaScript) runtime value. -/
inductive JSValue where
  | undefined
  | null
  | bool (b : Bool)
  | num (q : JsonNum)
  | str (s : String)
  | arr (elems : List JSValue)
  | obj (fields : List (String × JSValue))

/-- The whole number n as a host-language number value. -/
def jsNumOfNat (n : Nat) : JSValue := .num ⟨(n : Int), 1⟩

/-- Host-language truthiness of a value. -/
def JSValue.truthy : JSValue → Bool
  | .undefined => false
  | .null => false
  | .bool b => b
  | .num q => !(q.num == 0)
  | .str s => !(s == "")
  | .arr _ => true
  | .obj _ => true

/-- The typeof operator yields the string tag object for these values. -/
def JSValue.typeofObject : JSValue → Bool
  | .null => true
  | .arr _ => true
  | .obj _ => true
  | _ => false

/-- Property read v.k (and the optional chain v?.k): a field of an object,
and undefined for a missing field or a non-object receiver. -/
def JSValue.get (v : JSValue) (k : String) : JSValue :=
  match v with
  | .obj fs =>
    match fs.lookup k with
    | some w => w
    | none => .undefined
  | _ => .undefined

/-- Host-language a || b on values: a when truthy, otherwise b. -/
def jsOr (a b : JSValue) : JSValue := if a.truthy then a else b

/-- Strict equality (===). Primitives compare by value; composites compare
by reference in the host language, so two independently obtained composites
compare unequal, the case modelled here. -/
def jsStrictEq : JSValue → JSValue → Bool
  | .undefined, .undefined => true
  | .null, .null => true
  | .bool a, .bool b => a == b
  | .num a, .num b => a.num * (b.den : Int) == b.num * (a.den : Int)
  | .str a, .str b => a == b
  | _, _ => false

/-- The value of v.length: element count of an array, length of a string,
the length field of a plain object, undefined otherwise. -/
def JSValue.lengthVal : JSValue → JSValue
  | .arr xs => jsNumOfNat xs.length
  | .str s => jsNumOfNat s.length
  | .obj fs =>
    match fs.lookup "length" with
    | some w => w
    | none => .undefined
  | _ => .undefined

/-- The comparison v > 0 for a value obtained from a length read. -/
def jsGtZero : JSValue → Bool
  | .num q => decide (0 < q.num)
  | _ => false

/-- Assignment target[k] = v on an entry list: replaces the value at an
existing key in place, otherwise appends, as host-language objects do. -/
def objSet (t : List (String × JSValue)) (kv : String × JSValue) : List (String × JSValue) :=
  if t.any (fun p => p.1 == kv.1) then
    t.map (fun p => if p.1 == kv.1 then (p.1, kv.2) else p)
  else t ++ [kv]

/-- Object.keys enumeration order with values: fields of an object, index
entries of an array or a string, and nothing for primitives (the two call
sites guard with try/catch, so a throwing enumeration yields no entries). -/
def jsEntries : JSValue → List (String × JSValue)
  | .obj fs => fs
  | .arr xs => xs.enum.map (fun p => (toString p.1, p.2))
  | .str s => s.toList.enum.map (fun p => (toString p.1, JSValue.str (String.mk [p.2])))
  | _ => []

/-- Host-language whitespace class, as used by String.trim and by the
regex class backslash-s. -/
def jsWhitespaceCh (c : Char) : Bool :=
  let n := c.toNat
  n == 32 || (9 ≤ n && n ≤ 13) || n == 160 || n == 5760 || (8192 ≤ n && n ≤ 8202) ||
  n == 8232 || n == 8233 || n == 8239 || n == 8287 || n == 12288 || n == 65279

/-- Trim host-language whitespace from both ends of a character list. -/
def trimChars (cs : List Char) : List Char :=
  ((cs.dropWhile jsWhitespaceCh).reverse.dropWhile jsWhitespaceCh).reverse

/-- String.trim. -/
def jsTrim (s : String) : String := String.mk (trimChars s.toList)

/-- Whether the needle occurs at the head of the haystack. -/
def subAt : List Char → List Char → Bool
  | [], _ => true
  | n :: ns, hay =>
    match hay with
    | [] => false
    | h :: hs => if n == h then subAt ns hs else false

/-- Whether the needle occurs anywhere in the haystack (String.includes). -/
def hasSubList : List Char → List Char → Bool
  | [], needle => subAt needle []
  | h@(_ :: t), needle => subAt needle h || hasSubList t needle

/-- String.includes. -/
def strHasSub (s sub : String) : Bool := hasSubList s.toList sub.toList

/-- Remove the first occurrence of the needle, as replace(needle, empty)
does; the string is unchanged when the needle does not occur. -/
def removeSubOnce : List Char → List Char → List Char
  | [], _ => []
  | h@(c :: t), needle => if subAt needle h then h.drop needle.length else c :: removeSubOnce t needle

/-- String.replace with an empty replacement, first occurrence only. -/
def strRemoveOnce (s sub : String) : String := String.mk (removeSubOnce s.toList sub.toList)

/-- Math.round of the ratio a over b for positive b: the floor of the
ratio plus one half, computed exactly on integers. -/
def jsRoundRatio (a b : Int) : Int := (2 * a + b).fdiv (2 * b)

/-- Decimal digit test, the regex class backslash-d, over code points. -/
def isDigitCh (c : Char) : Bool := 48 ≤ c.toNat && c.toNat ≤ 57

/-- Numeric value of a decimal digit, over code points. -/
def digitVal (c : Char) : Nat := c.toNat - 48

/-- Value of a list of decimal digits, most significant first. -/
def digitsToNat (ds : List Char) : Nat := ds.foldl (fun acc d => 10 * acc + digitVal d) 0

/-- JSON whitespace accepted between tokens by JSON.parse. -/
def isJsonWs (c : Char) : Bool := c.toNat == 32 || c.toNat == 9 || c.toNat == 10 || c.toNat == 13

/-- Skip JSON token whitespace. -/
def skipWs (cs : List Char) : List Char := cs.dropWhile isJsonWs

/-- Integer part of a JSON number: a single zero, or a nonzero digit
followed by digits (JSON forbids leading zeros). -/
def parseIntPart : List Char → Option (List Char × List Char)
  | '0' :: t => some (['0'], t)
  | c :: t => if isDigitCh c then some (c :: t.takeWhile isDigitCh, t.dropWhile isDigitCh) else none
  | [] => none

/-- Parse a JSON number token at the head of the input. -/
def parseJsonNumber (cs : List Char) : Option (JsonNum × List Char) := do
  let (neg, cs1) :=
    match cs with
    | '-' :: t => (true, t)
    | _ => (false, cs)
  let (ip, cs2) ← parseIntPart cs1
  let (fp, cs3) ←
    match cs2 with
    | '.' :: t =>
      let ds := t.takeWhile isDigitCh
      if ds.isEmpty then none else some (ds, t.dropWhile isDigitCh)
    | _ => some (([] : List Char), cs2)
  let (esign, ed, cs4) ←
    match cs3 with
    | 'e' :: t | 'E' :: t =>
      let (s, t2) :=
        match t with
        | '+' :: u => ((1 : Int), u)
        | '-' :: u => ((-1 : Int), u)
        | _ => ((1 : Int), t)
      let ds := t2.takeWhile isDigitCh
      if ds.isEmpty then none else some ((s, ds, t2.dropWhile isDigitCh))
    | _ => some (((1 : Int), ([] : List Char), cs3))
  let mantNum : Int := (digitsToNat ip : Int) * ((10 ^ fp.length : Nat) : Int) + (digitsToNat fp : Int)
  let mantDen : Nat := 10 ^ fp.length
  let signedNum : Int := if neg then -mantNum else mantNum
  let e : Nat := digitsToNat ed
  if 0 ≤ esign then
    some (⟨signedNum * ((10 ^ e : Nat) : Int), mantDen⟩, cs4)
  else
    some (⟨signedNum, mantDen * 10 ^ e⟩, cs4)

/-- Hexadecimal digit value, written over code points: digits map to
zero through nine, both letter cases map to ten through fifteen. -/
def hexVal (c : Char) : Option Nat :=
  let n := c.toNat
  if 48 ≤ n && n ≤ 57 then some (n - 48)
  else if 97 ≤ n && n ≤ 102 then some (n - 87)
  else if 65 ≤ n && n ≤ 70 then some (n - 55)
  else none

/-- Body of a JSON string after the opening quote: returns the decoded
characters and the input after the closing quote. Unescaped control
characters and bad escapes are rejected, as JSON.parse rejects them. -/
def parseStrBody : List Char → Option (List Char × List Char)
  | [] => none
  | '"' :: t => some ([], t)
  | '\\' :: '"' :: t => (parseStrBody t).map (fun r => ('"' :: r.1, r.2))
  | '\\' :: '\\' :: t => (parseStrBody t).map (fun r => ('\\' :: r.1, r.2))
  | '\\' :: '/' :: t => (parseStrBody t).map (fun r => ('/' :: r.1, r.2))
  | '\\' :: 'b' :: t => (parseStrBody t).map (fun r => ('\x08' :: r.1, r.2))
  | '\\' :: 'f' :: t => (parseStrBody t).map (fun r => ('\x0c' :: r.1, r.2))
  | '\\' :: 'n' :: t => (parseStrBody t).map (fun r => ('\n' :: r.1, r.2))
  | '\\' :: 'r' :: t => (parseStrBody t).map (fun r => ('\r' :: r.1, r.2))
  | '\\' :: 't' :: t => (parseStrBody t).map (fun r => ('\t' :: r.1, r.2))
  | '\\' :: 'u' :: a :: b :: c :: d :: t => do
    let ha ← hexVal a
    let hb ← hexVal b
    let hc ← hexVal c
    let hd ← hexVal d
    let r ← parseStrBody t
    some (Char.ofNat (((ha * 16 + hb) * 16 + hc) * 16 + hd) :: r.1, r.2)
  | '\\' :: _ => none
  | c :: t => if c.toNat < 32 then none else (parseStrBody t).map (fun r => (c :: r.1, r.2))

mutual

/-- Parse one JSON value, fuel-bounded; the fuel passed by jsonParse is
large enough for every input, so exhaustion only occurs on inputs that
JSON.parse rejects as well. -/
def parseJsonValue : Nat → List Char → Option (JSValue × List Char)
  | 0, _ => none
  | Nat.succ fuel, cs =>
    match skipWs cs with
    | 'n' :: 'u' :: 'l' :: 'l' :: t => some (.null, t)
    | 't' :: 'r' :: 'u' :: 'e' :: t => some (.bool true, t)
    | 'f' :: 'a' :: 'l' :: 's' :: 'e' :: t => some (.bool false, t)
    | '"' :: t => (parseStrBody t).map (fun r => (.str (String.mk r.1), r.2))
    | '[' :: t =>
      (match skipWs t with
       | ']' :: t2 => some (.arr [], t2)
       | t2 => (parseArrayItems fuel t2 []).map (fun r => (.arr r.1, r.2)))
    | '{' :: t =>
      (match skipWs t with
       | '}' :: t2 => some (.obj [], t2)
       | t2 => (parseObjectItems fuel t2 []).map (fun r => (.obj r.1, r.2)))
    | rest => (parseJsonNumber rest).map (fun r => (.num r.1, r.2))

/-- Parse the comma-separated items of a nonempty JSON array. -/
def parseArrayItems : Nat → List Char → List JSValue → Option (List JSValue × List Char)
  | 0, _, _ => none
  | Nat.succ fuel, cs, acc => do
    let (v, rest) ← parseJsonValue fuel cs
    match skipWs rest with
    | ',' :: t => parseArrayItems fuel (skipWs t) (acc ++ [v])
    | ']' :: t => some (acc ++ [v], t)
    | _ => none

/-- Parse the members of a nonempty JSON object; a duplicated key keeps
its first position with the later value, as host-language objects do. -/
def parseObjectItems : Nat → List Char → List (String × JSValue) → Option (List (String × JSValue) × List Char)
  | 0, _, _ => none
  | Nat.succ fuel, cs, acc =>
    match skipWs cs with
    | '"' :: t => do
      let (ks, r1) ← parseStrBody t
      match skipWs r1 with
      | ':' :: r2 => do
        let (v, r3) ← parseJsonValue fuel r2
        let acc2 := objSet acc (String.mk ks, v)
        match skipWs r3 with
        | ',' :: r4 => parseObjectItems fuel r4 acc2
        | '}' :: r4 => some (acc2, r4)
        | _ => none
      | _ => none
    | _ => none

end

/-- JSON.parse, returning none where the host function throws. -/
def jsonParse (s : String) : Option JSValue :=
  match parseJsonValue (2 * s.length + 2) s.toList with
  | some (v, rest) => if (skipWs rest).isEmpty then some v else none
  | none => none

/-- The attribute object returned by QRScannerService.parseQRData. A field
that the source object literal omits reads as undefined, the same value an
explicitly absent property yields, so one record shape models every branch. -/
structure ParsedQR where
  name : JSValue := .undefined
  email : JSValue := .undefined
  phone : JSValue := .undefined
  identifier : JSValue := .undefined
  additionalData : JSValue := .undefined

/-- Keys of the QR parser that are mapped onto named attributes; every
other key of a scanned object lands in additionalData. -/
def qrKnownFields : List String :=
  ["name", "displayName", "fullName", "email", "emailAddress",
   "phone", "phoneNumber", "mobile", "id", "identifier", "userId"]

/-- QRScannerService.extractAdditionalData: residual keys of the parsed
object, or undefined when none remain. -/
def qrExtractAdditionalData (parsed : JSValue) : JSValue :=
  let residual := (jsEntries parsed).filter (fun p => !(qrKnownFields.contains p.1))
  if residual.isEmpty then .undefined else .obj residual

/-- QRScannerService.parseEmailFormat: the Name-in-angle-brackets form, or
the whole trimmed string as the email. The name group is the nonempty run
before the first angle-open when the string starts with one such run; the
email group is the first angle-bracketed nonempty run without a closing
bracket inside. -/
def angleEmailMatch : List Char → Option (List Char)
  | [] => none
  | '<' :: t =>
    let run := t.takeWhile (fun c => !(c == '>'))
    let rest := t.dropWhile (fun c => !(c == '>'))
    if !run.isEmpty && !rest.isEmpty then some run else angleEmailMatch t
  | _ :: t => angleEmailMatch t

/-- Name group of the pattern caret, one or more non-angle characters,
angle-open: the leading run before the first angle-open, when nonempty. -/
def angleNameMatch (cs : List Char) : Option (List Char) :=
  let run := cs.takeWhile (fun c => !(c == '<'))
  if run.isEmpty then none
  else if (cs.drop run.length).isEmpty then none
  else some run

/-- QRScannerService.parseEmailFormat. -/
def parseEmailFormat (data : String) : ParsedQR :=
  if strHasSub data "<" && strHasSub data ">" then
    { name :=
        match angleNameMatch data.toList with
        | some run => .str (jsTrim (String.mk run))
        | none => .undefined,
      email :=
        match angleEmailMatch data.toList with
        | some run => .str (jsTrim (String.mk run))
        | none => .undefined }
  else
    { email := .str (jsTrim data) }

/-- QRScannerService.parseUserFormat delegates to the email format. -/
def parseUserFormat (data : String) : ParsedQR := parseEmailFormat data

/-- QRScannerService.parseStringFormat: prefix-style heuristics applied in
the fixed source order. -/
def parseStringFormat (data : String) : ParsedQR :=
  if strHasSub data "identity:" then
    parseEmailFormat (strRemoveOnce data "identity:")
  else if strHasSub data "user:" then
    parseUserFormat (strRemoveOnce data "user:")
  else if strHasSub data "@" then
    parseEmailFormat data
  else
    { identifier := .str data }

/-- QRScannerService.parseQRData. -/
def parseQRData (data : String) : ParsedQR :=
  match jsonParse data with
  | some parsed =>
    if parsed.typeofObject && !(parsed matches .null) then
      { name := jsOr (parsed.get "name") (jsOr (parsed.get "displayName") (parsed.get "fullName")),
        email := jsOr (parsed.get "email") (parsed.get "emailAddress"),
        phone := jsOr (parsed.get "phone") (jsOr (parsed.get "phoneNumber") (parsed.get "mobile")),
        identifier := jsOr (parsed.get "id") (jsOr (parsed.get "identifier") (parsed.get "userId")),
        additionalData := qrExtractAdditionalData parsed }
    else {}
  | none => parseStringFormat data

/-- The attribute set the specification assigns to unparsable input: the
whole raw string as the identifier. -/
def identifierOnly (raw : String) : ParsedQR := { identifier := .str raw }

/-- AnonIdentityService.isVerifiableCredential: truthiness of the object
and of the at-context, type, credentialSubject, issuer and issuanceDate
reads, with an Array.isArray check and the literal type tag only on the
type field. -/
def isVerifiableCredential (v : JSValue) : Bool :=
  v.truthy && v.typeofObject &&
  (v.get "@context").truthy &&
  (v.get "type").truthy &&
  (match v.get "type" with | .arr _ => true | _ => false) &&
  (match v.get "type" with
   | .arr xs => xs.any (fun e => jsStrictEq e (.str "VerifiableCredential"))
   | _ => false) &&
  (v.get "credentialSubject").truthy &&
  (v.get "issuer").truthy &&
  (v.get "issuanceDate").truthy

/-- Subject keys that the extractor maps onto named attributes; the rest
become additionalData. -/
def knownAttributeFields : List String :=
  ["id", "givenName", "name", "fullName", "email", "emailAddress",
   "phone", "phoneNumber", "mobile", "dateOfBirth", "dob",
   "address", "streetAddress"]

/-- AnonIdentityService.extractAdditionalAttributes: residual subject
entries, or undefined when none remain. -/
def extractAdditionalAttributes (subject : JSValue) : JSValue :=
  let residual := (jsEntries subject).filter (fun p => !(knownAttributeFields.contains p.1))
  if residual.isEmpty then .undefined else .obj residual

/-- The attribute set AnonIdentityService.extractIdentityFromCredential
returns. Every field of the source record literal is a property read, so
the caught-fault path (a non-object subject) coincides with reading each
alias off a non-object, which yields undefined throughout. -/
structure ExtractedIdentity where
  name : JSValue
  email : JSValue
  phone : JSValue
  dateOfBirth : JSValue
  address : JSValue
  additionalData : JSValue

/-- AnonIdentityService.extractIdentityFromCredential. -/
def extractIdentity (credential : JSValue) : ExtractedIdentity :=
  let subject := credential.get "credentialSubject"
  { name := jsOr (subject.get "givenName") (jsOr (subject.get "name") (subject.get "fullName")),
    email := jsOr (subject.get "email") (subject.get "emailAddress"),
    phone := jsOr (subject.get "phone") (jsOr (subject.get "phoneNumber") (subject.get "mobile")),
    dateOfBirth := jsOr (subject.get "dateOfBirth") (subject.get "dob"),
    address := jsOr (subject.get "address") (subject.get "streetAddress"),
    additionalData := extractAdditionalAttributes subject }

/-- Accumulator of IdentityFetchService.mergeCredentialData: the merged
object starts with only an empty additionalData object. -/
structure MergedData where
  name : JSValue := .undefined
  email : JSValue := .undefined
  phone : JSValue := .undefined
  additionalData : List (String × JSValue) := []

/-- One named field step of the merge loop: take the extracted value only
when it is truthy and the accumulator still lacks the field. -/
def jsFirstFill (cur ext : JSValue) : JSValue :=
  if ext.truthy && !cur.truthy then ext else cur

/-- One credential step of the merge loop of mergeCredentialData. -/
def mergeStep (m : MergedData) (credential : JSValue) : MergedData :=
  let extracted := extractIdentity credential
  { name := jsFirstFill m.name extracted.name,
    email := jsFirstFill m.email extracted.email,
    phone := jsFirstFill m.phone extracted.phone,
    additionalData :=
      match extracted.additionalData with
      | .obj fs => List.foldl objSet m.additionalData fs
      | _ => m.additionalData }

/-- IdentityFetchService.mergeCredentialData. -/
def mergeCredentialData (credentials : List JSValue) : MergedData :=
  credentials.foldl mergeStep {}

/-- The stored identity record (types/Identity.ts). dateAdded is the epoch
millisecond value of the stored Date; additionalData is the runtime object
(or undefined when absent). -/
structure Identity where
  id : String
  name : String
  email : Option String := none
  phone : Option String := none
  dateAdded : Int
  qrData : String
  isVerified : Bool
  additionalData : JSValue := .undefined

/-- Truthiness of an optional string property. -/
def optStrTruthy : Option String → Bool
  | none => false
  | some s => !(s == "")

/-- Truthiness of field and trim of the completeness filter:
field and field.trim().length greater than zero. -/
def filledField : Option String → Bool
  | none => false
  | some s => !(s == "") && !(jsTrim s == "")

/-- Outcome record of one validation rule. -/
structure RuleOutcome where
  valid : Bool
  error : Option String := none
  warning : Option String := none
  score : Int
deriving DecidableEq

/-- A validation rule of the registry; a thrown exception of the host rule
body is the Except error case. -/
structure VRule where
  name : String
  validate : Identity → Except String RuleOutcome

/-- The aggregate result of IdentityValidationService.validateIdentity. -/
structure ValidationResult where
  isValid : Bool
  errors : List String
  warnings : List String
  score : Int
deriving DecidableEq

/-- The regex for emails: one or more characters outside whitespace and
at-sign, an at-sign, then a tail without whitespace or at-signs containing
a dot that is neither its first nor its last character. -/
def emailFmt (s : String) : Bool :=
  let cs := s.toList
  let pre := cs.takeWhile (fun c => !(c == '@'))
  let rest := cs.drop pre.length
  match rest with
  | '@' :: post =>
    !pre.isEmpty &&
    pre.all (fun c => !(jsWhitespaceCh c)) &&
    post.all (fun c => !(jsWhitespaceCh c) && !(c == '@')) &&
    ((post.drop 1).dropLast.any (fun c => c == '.'))
  | _ => false

/-- The regex for phones: an optional plus sign then at least ten
characters, each a digit, whitespace, hyphen or parenthesis. -/
def phoneFmt (s : String) : Bool :=
  let cs := s.toList
  let cs1 := match cs with
    | '+' :: t => t
    | _ => cs
  decide (10 ≤ cs1.length) &&
  cs1.all (fun c => isDigitCh c || jsWhitespaceCh c || c == '-' || c == '(' || c == ')')

/-- Required Name rule. -/
def requiredNameRule : VRule :=
  { name := "Required Name",
    validate := fun identity =>
      let hasName := !(identity.name == "") && !(jsTrim identity.name == "")
      .ok { valid := hasName,
            error := if hasName then none else some "Identity must have a name",
            score := if hasName then 20 else 0 } }

/-- Valid Email Format rule; an absent or empty email is optional and
satisfies the rule with zero score. -/
def emailFormatRule : VRule :=
  { name := "Valid Email Format",
    validate := fun identity =>
      if !(optStrTruthy identity.email) then
        .ok { valid := true, score := 0 }
      else
        let ok := emailFmt (identity.email.getD "")
        .ok { valid := ok,
              error := if ok then none else some "Invalid email format",
              score := if ok then 15 else -10 } }

/-- Valid Phone Format rule; an absent or empty phone is optional. -/
def phoneFormatRule : VRule :=
  { name := "Valid Phone Format",
    validate := fun identity =>
      if !(optStrTruthy identity.phone) then
        .ok { valid := true, score := 0 }
      else
        let ok := phoneFmt (identity.phone.getD "")
        .ok { valid := ok,
              error := if ok then none else some "Invalid phone number format",
              score := if ok then 10 else -5 } }

/-- QR Data Integrity rule. -/
def qrIntegrityRule : VRule :=
  { name := "QR Data Integrity",
    validate := fun identity =>
      let hasQRData := !(identity.qrData == "") && !(jsTrim identity.qrData == "")
      if !hasQRData then
        .ok { valid := false, error := some "Missing QR code data", score := -20 }
      else
        match jsonParse identity.qrData with
        | some _ => .ok { valid := true, score := 15 }
        | none =>
          let hasValidFormat :=
            strHasSub identity.qrData "@" ||
            strHasSub identity.qrData "identity:" ||
            strHasSub identity.qrData "user:"
          .ok { valid := true,
                warning := if hasValidFormat then none else some "QR data format may be invalid",
                score := if hasValidFormat then 10 else 5 } }

/-- Verification Status rule. -/
def verificationStatusRule : VRule :=
  { name := "Verification Status",
    validate := fun identity =>
      .ok { valid := true,
            warning := if identity.isVerified then none else some "Identity is not verified",
            score := if identity.isVerified then 25 else 0 } }

/-- Data Completeness rule: the rounded percentage of populated fields,
scaled by the 0.15 weight and rounded again. -/
def dataCompletenessRule : VRule :=
  { name := "Data Completeness",
    validate := fun identity =>
      let filledFields : Nat :=
        (if filledField (some identity.name) then 1 else 0) +
        (if filledField identity.email then 1 else 0) +
        (if filledField identity.phone then 1 else 0)
      let completeness : Int := jsRoundRatio ((filledFields : Int) * 100) 3
      .ok { valid := true,
            warning := if completeness < 67 then some "Identity data is incomplete" else none,
            score := jsRoundRatio (completeness * 15) 100 } }

/-- Credential Validation rule. -/
def credentialValidationRule : VRule :=
  { name := "Credential Validation",
    validate := fun identity =>
      let ad := identity.additionalData
      let hasCredentials :=
        (ad.get "credentialId").truthy || jsGtZero (ad.get "credentials").lengthVal
      if !hasCredentials then
        .ok { valid := true,
              warning := some "No verifiable credentials associated",
              score := 0 }
      else
        let hasValidCredentialData := (ad.get "issuer").truthy && (ad.get "issuanceDate").truthy
        .ok { valid := true, score := if hasValidCredentialData then 20 else 10 } }

/-- Whole days since the record was added, as the floor of the
millisecond difference divided by one day. -/
def freshnessDays (now : Int) (identity : Identity) : Int :=
  (now - identity.dateAdded).fdiv 86400000

/-- Outcome of the Data Freshness rule as a function of the day count. -/
def freshnessOutcome (daysSinceAdded : Int) : RuleOutcome :=
  if daysSinceAdded ≤ 7 then { valid := true, score := 10 }
  else if daysSinceAdded ≤ 30 then { valid := true, score := 5 }
  else if daysSinceAdded ≤ 90 then
    { valid := true, warning := some "Identity data is more than 30 days old", score := 0 }
  else
    { valid := true,
      warning := some "Identity data is more than 90 days old - consider refreshing",
      score := -5 }

/-- Data Freshness rule; the wall clock read by the source is the explicit
now parameter. -/
def dataFreshnessRule (now : Int) : VRule :=
  { name := "Data Freshness",
    validate := fun identity => .ok (freshnessOutcome (freshnessDays now identity)) }

/-- The default registry installed by the service constructor, in source
order. -/
def defaultRules (now : Int) : List VRule :=
  [requiredNameRule, emailFormatRule, phoneFormatRule, qrIntegrityRule,
   verificationStatusRule, dataCompletenessRule, credentialValidationRule,
   dataFreshnessRule now]

/-- The rule loop of validateIdentity: accumulated errors, warnings and
unclamped score. A rule that throws contributes the catch-branch warning
naming the rule and nothing else. -/
def runRules : List VRule → Identity → List String × List String × Int
  | [], _ => ([], [], 0)
  | r :: rs, identity =>
    let acc := runRules rs identity
    match r.validate identity with
    | .ok result =>
      ((if !result.valid && optStrTruthy result.error then result.error.getD "" :: acc.1 else acc.1),
       (if optStrTruthy result.warning then result.warning.getD "" :: acc.2.1 else acc.2.1),
       result.score + acc.2.2)
    | .error _ =>
      (acc.1, ("Validation rule \x27" ++ r.name ++ "\x27 failed to execute") :: acc.2.1, acc.2.2)

/-- The final clamp of validateIdentity into the range zero to one
hundred. -/
def clampScore (totalScore : Int) : Int := max 0 (min 100 totalScore)

/-- IdentityValidationService.validateIdentity over a given registry
state. -/
def validateIdentity (rules : List VRule) (identity : Identity) : ValidationResult :=
  let acc := runRules rules identity
  { isValid := acc.1.isEmpty,
    errors := acc.1,
    warnings := acc.2.1,
    score := clampScore acc.2.2 }

/-- IdentityValidationService.removeRule: the registry after the call and
the returned flag. -/
def removeRule (rules : List VRule) (ruleName : String) : List VRule × Bool :=
  let newRules := rules.filter (fun rule => !(rule.name == ruleName))
  (newRules, decide (newRules.length < rules.length))

/-- The summary record of getValidationSummary. -/
structure ValidationSummary where
  level : String
  score : Int
  primaryIssues : List String
  recommendations : List String
deriving DecidableEq

/-- IdentityValidationService.getValidationSummary over the default
registry, with the wall clock explicit. -/
def getValidationSummary (now : Int) (identity : Identity) : ValidationSummary :=
  let validation := validateIdentity (defaultRules now) identity
  let level : String :=
    if validation.score ≥ 80 then "excellent"
    else if validation.score ≥ 60 then "good"
    else if validation.score ≥ 40 then "fair"
    else "poor"
  let primaryIssues := validation.errors ++ validation.warnings.take 3
  let recommendations :=
    (if !identity.isVerified then ["Scan a QR code with verifiable credentials to improve trust"] else []) ++
    (if !(optStrTruthy identity.email) then ["Add an email address for better identity verification"] else []) ++
    (if !(optStrTruthy identity.phone) then ["Add a phone number for additional contact information"] else []) ++
    (if validation.errors.length > 0 then ["Fix validation errors to improve identity reliability"] else [])
  { level := level,
    score := validation.score,
    primaryIssues := primaryIssues,
    recommendations := recommendations.take 3 }

/-- A stored optional string property as a runtime value: the string, or
undefined when absent. -/
def jsOfOptStr : Option String → JSValue
  | none => .undefined
  | some s => .str s

/-- The matching filter of fetchAndPopulateIdentity: subject id against
the stored decentralized identifier reference, subject email against the
record email, and subject name or givenName against the record name. -/
def fetchMatches (identity : Identity) (cred : JSValue) : Bool :=
  let subject := cred.get "credentialSubject"
  jsStrictEq (subject.get "id") (identity.additionalData.get "did") ||
  jsStrictEq (subject.get "email") (jsOfOptStr identity.email) ||
  jsStrictEq (subject.get "name") (.str identity.name) ||
  jsStrictEq (subject.get "givenName") (.str identity.name)

/-- The matching filter of createVerifiablePresentation: subject id,
email and name only. -/
def presentationMatches (identity : Identity) (cred : JSValue) : Bool :=
  let subject := cred.get "credentialSubject"
  jsStrictEq (subject.get "id") (identity.additionalData.get "did") ||
  jsStrictEq (subject.get "email") (jsOfOptStr identity.email) ||
  jsStrictEq (subject.get "name") (.str identity.name)

/-- The subject read of createVerifiablePresentation on the givenName
alias, the disjunct present only in the fetch filter. -/
def givenNameMatches (identity : Identity) (cred : JSValue) : Bool :=
  jsStrictEq ((cred.get "credentialSubject").get "givenName") (.str identity.name)

/-- The updated identity record built by fetchAndPopulateIdentity; the
credential-supplied field values are runtime values, so the name, email
and phone slots hold JSValue here. -/
structure PopulatedIdentity where
  id : String
  name : JSValue
  email : JSValue
  phone : JSValue
  dateAdded : Int
  qrData : String
  isVerified : Bool
  additionalData : JSValue

/-- The redacted credential annotation stored on the updated record. -/
def credSummary (cred : JSValue) : JSValue :=
  .obj [("id", cred.get "id"), ("issuer", cred.get "issuer"),
        ("issuanceDate", cred.get "issuanceDate"), ("type", cred.get "type")]

/-- The updated-identity construction of fetchAndPopulateIdentity on the
branch with at least one related credential: merged fields override the
stored ones when truthy, the record is marked verified, and the
additionalData spread appends credential count, fetch timestamp and the
redacted credential list. The ISO timestamp read from the wall clock is
the nowIso parameter. -/
def applyPopulated (existing : Identity) (relatedCredentials : List JSValue)
    (nowIso : String) : PopulatedIdentity :=
  let populatedData := mergeCredentialData relatedCredentials
  { id := existing.id,
    name := jsOr populatedData.name (.str existing.name),
    email := jsOr populatedData.email (jsOfOptStr existing.email),
    phone := jsOr populatedData.phone (jsOfOptStr existing.phone),
    dateAdded := existing.dateAdded,
    qrData := existing.qrData,
    isVerified := true,
    additionalData :=
      let spread := List.foldl objSet (jsEntries existing.additionalData) populatedData.additionalData
      let withCount := objSet spread ("credentialCount", jsNumOfNat relatedCredentials.length)
      let withFetched := objSet withCount ("lastFetched", .str nowIso)
      .obj (objSet withFetched ("credentials", .arr (relatedCredentials.map credSummary))) }

/-- First-occurrence lookup in an entry list, the read an object property
access performs. -/
def firstEntryLookup : List (String × JSValue) → String → Option JSValue
  | [], _ => none
  | p :: t, k => if p.1 = k then some p.2 else firstEntryLookup t k

/-- Specification-side value of a first-non-empty-wins merge: the first
truthy value of the list, or undefined when the list supplies none. -/
def firstTruthy : List JSValue → JSValue
  | [] => .undefined
  | x :: t => if x.truthy then x else firstTruthy t

/-- Specification-side last-write-wins lookup in an entry list: the value
of the last entry carrying the key. -/
def lastEntryLookup : List (String × JSValue) → String → Option JSValue
  | [], _ => none
  | p :: t, k =>
    match lastEntryLookup t k with
    | some v => some v
    | none => if p.1 = k then some p.2 else none

/-- The additionalData contribution of one credential at one key. -/
def credAddLookup (cred : JSValue) (k : String) : Option JSValue :=
  match (extractIdentity cred).additionalData with
  | .obj fs => lastEntryLookup fs k
  | _ => none

/-- Specification-side last-write-wins union over a credential list: the
value contributed by the last credential whose additionalData carries the
key. -/
def lastWinsLookup : List JSValue → String → Option JSValue
  | [], _ => none
  | c :: t, k =>
    match lastWinsLookup t k with
    | some v => some v
    | none => credAddLookup c k

/-- Array test of the host language. -/
def isArrVal : JSValue → Bool
  | .arr _ => true
  | _ => false

/-- Whether a value is null or absent. -/
def isNullOrUndefined : JSValue → Bool
  | .null => true
  | .undefined => true
  | _ => false

/-- Whether a value is an array containing the literal credential type
tag. -/
def typeIncludesVC : JSValue → Bool
  | .arr xs => xs.any (fun e => jsStrictEq e (.str "VerifiableCredential"))
  | _ => false

/-- The detection condition exactly as the claim states it: a context
array, a type array with the tag, and non-null credentialSubject, issuer
and issuanceDate. -/
def vcClaimSpec (v : JSValue) : Bool :=
  isArrVal (v.get "@context") &&
  typeIncludesVC (v.get "type") &&
  !(isNullOrUndefined (v.get "credentialSubject")) &&
  !(isNullOrUndefined (v.get "issuer")) &&
  !(isNullOrUndefined (v.get "issuanceDate"))

/-- A credential whose at-context is a plain string rather than an array,
with every other detection field present and truthy. -/
def credC4 : JSValue :=
  .obj [("@context", .str "https://www.w3.org/2018/credentials/v1"),
        ("type", .arr [.str "VerifiableCredential"]),
        ("credentialSubject", .obj [("name", .str "Alice")]),
        ("issuer", .str "did:example:issuer"),
        ("issuanceDate", .str "2024-01-01T00:00:00Z")]

/-- A registry rule whose body throws on every record. -/
def boomRule : VRule :=
  { name := "Boom", validate := fun _ => .error "boom" }

/-- A plain record for exercising the rule-fault path. -/
def identityC5 : Identity :=
  { id := "id-5", name := "Ann", dateAdded := 0, qrData := "x", isVerified := false }

/-- A record whose name only matches credentials through the givenName
alias. -/
def identityC6 : Identity :=
  { id := "id-6", name := "Alice", email := some "c@d.com", dateAdded := 0,
    qrData := "q", isVerified := false,
    additionalData := .obj [("did", .str "did:example:1")] }

/-- A credential matching identityC6 only on the givenName alias. -/
def credC6 : JSValue :=
  .obj [("credentialSubject",
         .obj [("id", .str "did:example:other"),
               ("email", .str "a@b.com"),
               ("givenName", .str "Alice")])]

/-- A record failing four default rules at once: empty name, malformed
email, short phone and empty QR payload. -/
def identityC7 : Identity :=
  { id := "id-7", name := "", email := some "bad", phone := some "123",
    dateAdded := 0, qrData := "", isVerified := false }

/-- A well-formed record used to exercise the freshness boundary. -/
def identityC8 : Identity :=
  { id := "id-8", name := "John Doe", dateAdded := 0,
    qrData := "identity:john@example.com", isVerified := true }

/-- A stored record with a name and phone of its own and no email. -/
def identityC9 : Identity :=
  { id := "id-9", name := "Old Name", phone := some "+1234567890",
    dateAdded := 0, qrData := "q", isVerified := false }

/-- A credential supplying a name through the givenName alias and one
residual attribute, but no email or phone. -/
def credC9 : JSValue :=
  .obj [("credentialSubject",
         .obj [("givenName", .str "New Name"), ("dept", .str "Eng")])]

/-- The additionalData step of the merge loop in isolation. -/
def addAssignStep (t : List (String × JSValue)) (c : JSValue) : List (String × JSValue) :=
  match (extractIdentity c).additionalData with
  | .obj fs => List.foldl objSet t fs
  | _ => t

theorem foldl_jsFirstFill_truthy (xs : List JSValue) (cur : JSValue) (h : cur.truthy = true) :
    xs.foldl jsFirstFill cur = cur := by
  induction xs generalizing cur with
  | nil => rfl
  | cons x t ih =>
    rw [List.foldl_cons]
    have hx : jsFirstFill cur x = cur := by simp [jsFirstFill, h]
    rw [hx, ih cur h]

theorem foldl_jsFirstFill_undefined (xs : List JSValue) :
    xs.foldl jsFirstFill .undefined = firstTruthy xs := by
  induction xs with
  | nil => rfl
  | cons x t ih =>
    rw [List.foldl_cons, firstTruthy]
    have hu : JSValue.undefined.truthy = false := rfl
    by_cases hx : x.truthy = true
    · have hs : jsFirstFill JSValue.undefined x = x := by simp [jsFirstFill, hu, hx]
      rw [hs, foldl_jsFirstFill_truthy t x hx, if_pos hx]
    · have hs : jsFirstFill JSValue.undefined x = JSValue.undefined := by
        simp [jsFirstFill, hu, Bool.eq_false_iff.mpr hx]
      rw [hs, ih, if_neg hx]

theorem foldl_mergeStep_name (creds : List JSValue) (m : MergedData) :
    (creds.foldl mergeStep m).name =
      (creds.map (fun c => (extractIdentity c).name)).foldl jsFirstFill m.name := by
  induction creds generalizing m with
  | nil => rfl
  | cons c t ih =>
    rw [List.foldl_cons, List.map_cons, List.foldl_cons, ih]
    rfl

theorem foldl_mergeStep_email (creds : List JSValue) (m : MergedData) :
    (creds.foldl mergeStep m).email =
      (creds.map (fun c => (extractIdentity c).email)).foldl jsFirstFill m.email := by
  induction creds generalizing m with
  | nil => rfl
  | cons c t ih =>
    rw [List.foldl_cons, List.map_cons, List.foldl_cons, ih]
    rfl

theorem foldl_mergeStep_phone (creds : List JSValue) (m : MergedData) :
    (creds.foldl mergeStep m).phone =
      (creds.map (fun c => (extractIdentity c).phone)).foldl jsFirstFill m.phone := by
  induction creds generalizing m with
  | nil => rfl
  | cons c t ih =>
    rw [List.foldl_cons, List.map_cons, List.foldl_cons, ih]
    rfl

theorem foldl_mergeStep_additional (creds : List JSValue) (m : MergedData) :
    (creds.foldl mergeStep m).additionalData = creds.foldl addAssignStep m.additionalData := by
  induction creds generalizing m with
  | nil => rfl
  | cons c t ih =>
    rw [List.foldl_cons, List.foldl_cons, ih]
    rfl

theorem firstEntryLookup_map_ne (t : List (String × JSValue)) (k0 : String) (v0 : JSValue)
    (k : String) (hk : k0 ≠ k) :
    firstEntryLookup (t.map (fun p => if p.1 = k0 then (p.1, v0) else p)) k =
      firstEntryLookup t k := by
  induction t with
  | nil => rfl
  | cons p t ih =>
    rw [List.map_cons]
    by_cases hp : p.1 = k0
    · have hpk : p.1 ≠ k := by
        rw [hp]
        exact hk
      simp [firstEntryLookup, hp, hpk, hk, ih]
    · by_cases hq : p.1 = k
      · simp [firstEntryLookup, hp, hq, Ne.symm hk]
      · simp [firstEntryLookup, hp, hq, ih]

theorem firstEntryLookup_map_found (t : List (String × JSValue)) (k0 : String) (v0 : JSValue)
    (k : String) (hk : k0 = k) (hAny : t.any (fun p => p.1 == k0) = true) :
    firstEntryLookup (t.map (fun p => if p.1 = k0 then (p.1, v0) else p)) k = some v0 := by
  induction t with
  | nil => simp at hAny
  | cons p t ih =>
    rw [List.map_cons]
    by_cases hp : p.1 = k0
    · have hpk : p.1 = k := hp.trans hk
      simp [firstEntryLookup, hp, hpk, hk]
    · have hpk : ¬(p.1 = k) := by
        rw [← hk]
        exact hp
      have hAnyT : t.any (fun p => p.1 == k0) = true := by
        simpa [hp] using hAny
      simp [firstEntryLookup, hp, hpk, ih hAnyT]

theorem firstEntryLookup_append (t1 t2 : List (String × JSValue)) (k : String) :
    firstEntryLookup (t1 ++ t2) k =
      match firstEntryLookup t1 k with
      | some v => some v
      | none => firstEntryLookup t2 k := by
  induction t1 with
  | nil => rfl
  | cons p t ih =>
    by_cases hp : p.1 = k
    · simp [firstEntryLookup, hp]
    · simp [firstEntryLookup, hp, ih]

theorem firstEntryLookup_none_of_not_any (t : List (String × JSValue)) (k : String)
    (h : t.any (fun p => p.1 == k) = false) :
    firstEntryLookup t k = none := by
  induction t with
  | nil => rfl
  | cons p t ih =>
    rw [List.any_cons] at h
    by_cases hp : p.1 = k
    · simp [hp] at h
    · have ht : t.any (fun p => p.1 == k) = false := by
        simpa [hp] using h
      simp [firstEntryLookup, hp, ih ht]

theorem objSet_map_lambda (k0 : String) (v0 : JSValue) :
    (fun (p : String × JSValue) => if p.1 == k0 then (p.1, v0) else p) =
      (fun p => if p.1 = k0 then (p.1, v0) else p) := by
  funext p
  by_cases h : p.1 = k0 <;> simp [h]

theorem firstEntryLookup_objSet (t : List (String × JSValue)) (k0 : String) (v0 : JSValue)
    (k : String) :
    firstEntryLookup (objSet t (k0, v0)) k =
      if k0 = k then some v0 else firstEntryLookup t k := by
  unfold objSet
  by_cases hAny : t.any (fun p => p.1 == k0) = true
  · rw [if_pos hAny, objSet_map_lambda]
    by_cases hk : k0 = k
    · rw [if_pos hk]
      exact firstEntryLookup_map_found t k0 v0 k hk hAny
    · rw [if_neg hk]
      exact firstEntryLookup_map_ne t k0 v0 k hk
  · have hAny2 : t.any (fun p => p.1 == k0) = false := Bool.eq_false_iff.mpr hAny
    rw [if_neg hAny, firstEntryLookup_append]
    by_cases hk : k0 = k
    · have hnone : firstEntryLookup t k = none := by
        apply firstEntryLookup_none_of_not_any
        rw [← hk]
        exact hAny2
      rw [hnone, if_pos hk]
      simp [firstEntryLookup, hk]
    · rw [if_neg hk]
      cases hfel : firstEntryLookup t k with
      | some v => rfl
      | none => simp [firstEntryLookup, hk]

theorem firstEntryLookup_foldl_objSet (fs : List (String × JSValue))
    (t : List (String × JSValue)) (k : String) :
    firstEntryLookup (List.foldl objSet t fs) k =
      match lastEntryLookup fs k with
      | some v => some v
      | none => firstEntryLookup t k := by
  induction fs generalizing t with
  | nil => rfl
  | cons p fs ih =>
    obtain ⟨pk, pv⟩ := p
    rw [List.foldl_cons, ih]
    cases hl : lastEntryLookup fs k with
    | some v => simp [lastEntryLookup, hl]
    | none =>
      have hset := firstEntryLookup_objSet t pk pv k
      by_cases hk : pk = k
      · simp [lastEntryLookup, hl, hk]
        simpa [hk] using hset
      · simp [lastEntryLookup, hl, hk]
        simpa [hk] using hset

theorem firstEntryLookup_foldl_assign (creds : List JSValue)
    (t : List (String × JSValue)) (k : String) :
    firstEntryLookup (List.foldl addAssignStep t creds) k =
      match lastWinsLookup creds k with
      | some v => some v
      | none => firstEntryLookup t k := by
  induction creds generalizing t with
  | nil => rfl
  | cons c cs ih =>
    rw [List.foldl_cons, ih]
    cases hl : lastWinsLookup cs k with
    | some v => simp [lastWinsLookup, hl]
    | none =>
      simp only [lastWinsLookup, hl]
      unfold addAssignStep credAddLookup
      cases hx : (extractIdentity c).additionalData <;>
        simp [firstEntryLookup_foldl_objSet]

/-- C1: for every list of matched credentials, the reconciliation merge
assigns name, email and phone from the first credential in iteration order
whose extracted attribute set supplies a non-empty value for that field,
later suppliers being ignored, while at every key the merged
additionalData holds the value contributed by the last credential whose
extracted additionalData carries that key. -/
theorem mergeCredentialData_first_wins_last_wins (credentials : List JSValue) :
    (mergeCredentialData credentials).name =
      firstTruthy (credentials.map (fun c => (extractIdentity c).name)) ∧
    (mergeCredentialData credentials).email =
      firstTruthy (credentials.map (fun c => (extractIdentity c).email)) ∧
    (mergeCredentialData credentials).phone =
      firstTruthy (credentials.map (fun c => (extractIdentity c).phone)) ∧
    ∀ k, firstEntryLookup (mergeCredentialData credentials).additionalData k =
      lastWinsLookup credentials k := by
  refine ⟨?_, ?_, ?_, ?_⟩
  · rw [mergeCredentialData, foldl_mergeStep_name]
    exact foldl_jsFirstFill_undefined _
  · rw [mergeCredentialData, foldl_mergeStep_email]
    exact foldl_jsFirstFill_undefined _
  · rw [mergeCredentialData, foldl_mergeStep_phone]
    exact foldl_jsFirstFill_undefined _
  · intro k
    rw [mergeCredentialData, foldl_mergeStep_additional]
    rw [firstEntryLookup_foldl_assign]
    cases hl : lastWinsLookup credentials k <;> rfl

/-- C2: for every identity record and every registry of rules, including
custom rules added at runtime and rules that throw, the score of the
validation result lies between zero and one hundred. -/
theorem validateIdentity_score_in_range (rules : List VRule) (identity : Identity) :
    0 ≤ (validateIdentity rules identity).score ∧
      (validateIdentity rules identity).score ≤ 100 := by
  have h : (validateIdentity rules identity).score = clampScore (runRules rules identity).2.2 := rfl
  rw [h]
  unfold clampScore
  constructor
  · exact le_max_left 0 _
  · exact max_le (by norm_num) (min_le_left 100 _)

theorem filter_length_countP {α : Type} (l : List α) (p : α → Bool) :
    (l.filter p).length = l.countP p := by
  induction l with
  | nil => rfl
  | cons a l ih => cases hp : p a <;> simp [List.filter_cons, List.countP_cons, hp, ih]

theorem length_filter_not_lt_iff {α : Type} (l : List α) (p : α → Bool) :
    (l.filter (fun x => !(p x))).length < l.length ↔ l.any p = true := by
  induction l with
  | nil => simp
  | cons a l ih =>
    cases hp : p a
    · simp [List.filter_cons, hp, Nat.succ_lt_succ_iff, ih]
    · simp only [List.filter_cons, hp, Bool.not_true, List.any_cons, Bool.true_or, iff_true]
      exact Nat.lt_succ_of_le (List.length_filter_le _ _)

/-- C10: removeRule returns true exactly when some registered rule bears
the name, afterwards no rule with that name remains (duplicates are all
removed in one call), and the surviving rules are the other-named ones in
their original relative order. -/
theorem removeRule_spec (rules : List VRule) (ruleName : String) :
    (removeRule rules ruleName).2 = rules.any (fun rule => rule.name == ruleName) ∧
    (removeRule rules ruleName).1.all (fun rule => !(rule.name == ruleName)) = true ∧
    List.Sublist (removeRule rules ruleName).1 rules ∧
    (removeRule rules ruleName).1.length =
      rules.countP (fun rule => !(rule.name == ruleName)) := by
  refine ⟨?_, ?_, ?_, ?_⟩
  · have h2 : (removeRule rules ruleName).2 =
        decide ((rules.filter (fun rule => !(rule.name == ruleName))).length < rules.length) := rfl
    rw [h2, Bool.eq_iff_iff, decide_eq_true_eq]
    exact length_filter_not_lt_iff rules _
  · simp only [removeRule, List.all_eq_true]
    intro r hr
    exact (List.mem_filter.mp hr).2
  · exact List.filter_sublist rules
  · exact filter_length_countP rules _

/-- C4 counterexample: a credential whose at-context field is a plain
string, not an array, while every other detection field is present; the
detector accepts it although the claimed condition, which requires a
context array, fails. -/
theorem isVerifiableCredential_counterexample :
    isVerifiableCredential credC4 = true ∧ vcClaimSpec credC4 = false :=
  ⟨rfl, rfl⟩

/-- C4 amended: the detector returns true exactly when the value is a
truthy object, its at-context field is truthy (an array is not required),
its type field is an array containing the literal credential tag, and its
credentialSubject, issuer and issuanceDate fields are all truthy (absent
or null fields, and empty strings, are rejected). -/
theorem isVerifiableCredential_amended (v : JSValue) :
    isVerifiableCredential v = true ↔
      (v.truthy = true ∧ v.typeofObject = true ∧ (v.get "@context").truthy = true ∧
       isArrVal (v.get "type") = true ∧ typeIncludesVC (v.get "type") = true ∧
       (v.get "credentialSubject").truthy = true ∧ (v.get "issuer").truthy = true ∧
       (v.get "issuanceDate").truthy = true) := by
  cases h : v.get "type" <;>
    simp [isVerifiableCredential, isArrVal, typeIncludesVC, h, JSValue.truthy,
      Bool.and_eq_true, and_assoc]

/-- C6 counterexample: over the pool holding only credC6, reconciliation
selects the credential through the givenName disjunct while the
presentation filter selects nothing, so the two selected subsets differ. -/
theorem matching_filters_counterexample :
    List.filter (fun c => fetchMatches identityC6 c) [credC6] ≠
      List.filter (fun c => presentationMatches identityC6 c) [credC6] := by
  intro h
  rw [show List.filter (fun c => fetchMatches identityC6 c) [credC6] = [credC6] from rfl] at h
  rw [show List.filter (fun c => presentationMatches identityC6 c) [credC6] = ([] : List JSValue)
        from rfl] at h
  exact List.noConfusion h

/-- C6 amended: the fetch filter equals the presentation filter extended
by one extra disjunct, subject givenName against the record name; hence
every presentation-selected credential is fetch-selected, but not
conversely. -/
theorem fetch_vs_presentation_matching (identity : Identity) (cred : JSValue) :
    fetchMatches identity cred =
      (presentationMatches identity cred || givenNameMatches identity cred) := by
  unfold fetchMatches presentationMatches givenNameMatches
  simp [Bool.or_assoc]

theorem runRules_append (xs ys : List VRule) (identity : Identity) :
    runRules (xs ++ ys) identity =
      ((runRules xs identity).1 ++ (runRules ys identity).1,
       (runRules xs identity).2.1 ++ (runRules ys identity).2.1,
       (runRules xs identity).2.2 + (runRules ys identity).2.2) := by
  induction xs with
  | nil => simp [runRules]
  | cons x xs ih =>
    rw [List.cons_append]
    cases hv : x.validate identity with
    | ok out =>
      simp only [runRules, hv, ih]
      split_ifs <;> simp [add_assoc]
    | error e =>
      simp only [runRules, hv, ih]
      simp [add_assoc]

/-- C5: when a rule of the registry throws, validateIdentity still
completes; the failing rule contributes exactly one warning naming it, no
error and zero score, and the contribution of every other rule is the one
it makes on its own. -/
theorem validateIdentity_rule_fault (rules1 rules2 : List VRule) (r : VRule)
    (identity : Identity) (msg : String)
    (hthrow : r.validate identity = .error msg) :
    validateIdentity (rules1 ++ r :: rules2) identity =
      { isValid := ((runRules rules1 identity).1 ++ (runRules rules2 identity).1).isEmpty,
        errors := (runRules rules1 identity).1 ++ (runRules rules2 identity).1,
        warnings := (runRules rules1 identity).2.1 ++
          ("Validation rule \x27" ++ r.name ++ "\x27 failed to execute") ::
            (runRules rules2 identity).2.1,
        score := clampScore ((runRules rules1 identity).2.2 + (runRules rules2 identity).2.2) } := by
  have hmid : runRules (r :: rules2) identity =
      ((runRules rules2 identity).1,
       ("Validation rule \x27" ++ r.name ++ "\x27 failed to execute") ::
         (runRules rules2 identity).2.1,
       (runRules rules2 identity).2.2) := by
    simp [runRules, hthrow]
  simp [validateIdentity, runRules_append, hmid]

/-- C5 witness: a registry of the Required Name rule followed by a
throwing rule, on a plain record; the run completes with the single
catch-branch warning and the name score. -/
theorem validateIdentity_rule_fault_witness :
    validateIdentity [requiredNameRule, boomRule] identityC5 =
      { isValid := true, errors := [],
        warnings := ["Validation rule \x27Boom\x27 failed to execute"], score := 20 } :=
  (validateIdentity_rule_fault [requiredNameRule] [] boomRule identityC5 "boom" rfl).trans
    (by decide)

/-- C7 counterexample: a record violating four rules at once yields six
primary issues (four errors plus two warnings), exceeding the claimed
bound of three. -/
theorem getValidationSummary_counterexample :
    3 < (getValidationSummary 0 identityC7).primaryIssues.length := by decide

/-- C7 amended: the summary surfaces all errors first, followed by at
most three warnings, as its primary issues (so more than three issues
appear whenever the errors are numerous), and at most three
recommendations. -/
theorem getValidationSummary_amended (now : Int) (identity : Identity) :
    (getValidationSummary now identity).primaryIssues =
      (validateIdentity (defaultRules now) identity).errors ++
        (validateIdentity (defaultRules now) identity).warnings.take 3 ∧
    (getValidationSummary now identity).recommendations.length ≤ 3 := by
  constructor
  · rfl
  · have h : ∀ (l : List String), (l.take 3).length ≤ 3 := by
      intro l
      simp [List.length_take]
    exact h _

/-- C8 counterexample: the Data Freshness rule reads the wall clock, so
re-running validateIdentity on the unchanged record at two instants one
millisecond apart, straddling the eight-day boundary, yields different
results (scores seventy and sixty-five). -/
theorem validateIdentity_not_idempotent_across_time :
    validateIdentity (defaultRules 691199999) identityC8 ≠
      validateIdentity (defaultRules 691200000) identityC8 := by decide

/-- C8 amended: re-running validateIdentity on an unchanged record yields
an identical result whenever the whole-day count since dateAdded is the
same at both runs, in particular whenever the clock has not crossed a
freshness boundary between them; only the Data Freshness rule depends on
the clock. -/
theorem validateIdentity_stable_same_day_count (identity : Identity) (now1 now2 : Int)
    (h : freshnessDays now1 identity = freshnessDays now2 identity) :
    validateIdentity (defaultRules now1) identity =
      validateIdentity (defaultRules now2) identity := by
  have e1 : defaultRules now1 =
      [requiredNameRule, emailFormatRule, phoneFormatRule, qrIntegrityRule,
       verificationStatusRule, dataCompletenessRule, credentialValidationRule] ++
        [dataFreshnessRule now1] := rfl
  have e2 : defaultRules now2 =
      [requiredNameRule, emailFormatRule, phoneFormatRule, qrIntegrityRule,
       verificationStatusRule, dataCompletenessRule, credentialValidationRule] ++
        [dataFreshnessRule now2] := rfl
  have hf : runRules [dataFreshnessRule now1] identity =
      runRules [dataFreshnessRule now2] identity := by
    simp only [runRules, dataFreshnessRule, h]
  simp only [validateIdentity, e1, e2, runRules_append, hf]

/-- C8 witness: two clock readings a second apart with the same day
count give identical validation results on the same record. -/
theorem validateIdentity_stable_witness :
    validateIdentity (defaultRules 0) identityC8 =
      validateIdentity (defaultRules 1000) identityC8 :=
  validateIdentity_stable_same_day_count identityC8 0 1000 (by decide)

/-- C3 counterexample: the string 42 parses as JSON to a number, which
the object branch rejects, and no string heuristic applies, yet the
parser returns the empty attribute set rather than the claimed
identifier-only set. -/
theorem parseQRData_scalar_counterexample :
    parseQRData "42" ≠ identifierOnly "42" := by
  have hv : parseQRData "42" = ({} : ParsedQR) := rfl
  intro h
  rw [hv] at h
  exact JSValue.noConfusion (congrArg ParsedQR.identifier h)

/-- C3 amended: parseQRData never throws (it is total); input on which
JSON parsing fails and no heuristic applies (no identity or user marker
and no at-sign) degrades to the identifier-only attribute set, while
input that parses as JSON to anything other than a non-null object
(numbers, strings, booleans, null) yields the empty attribute set. -/
theorem parseQRData_degradation (s : String) :
    (jsonParse s = none → strHasSub s "identity:" = false → strHasSub s "user:" = false →
      strHasSub s "@" = false → parseQRData s = identifierOnly s) ∧
    (∀ v, jsonParse s = some v → (v.typeofObject && !(v matches .null)) = false →
      parseQRData s = ({} : ParsedQR)) := by
  constructor
  · intro hjson h1 h2 h3
    simp [parseQRData, hjson, parseStringFormat, h1, h2, h3, identifierOnly]
  · intro v hv hb
    simp [parseQRData, hv, hb]

/-- C3 witness: an unparsable marker-free string degrades to the
identifier-only set, and a JSON scalar yields the empty set. -/
theorem parseQRData_degradation_witness :
    parseQRData "random_text" = identifierOnly "random_text" ∧
      parseQRData "42" = ({} : ParsedQR) :=
  ⟨(parseQRData_degradation "random_text").1 rfl rfl rfl rfl,
   (parseQRData_degradation "42").2 _ rfl rfl⟩

theorem firstTruthy_eq_undefined (xs : List JSValue) (h : ∀ x ∈ xs, x.truthy = false) :
    firstTruthy xs = .undefined := by
  induction xs with
  | nil => rfl
  | cons x t ih =>
    rw [firstTruthy]
    rw [if_neg (by simp [h x (List.mem_cons_self x t)])]
    exact ih (fun y hy => h y (List.mem_cons_of_mem x hy))

/-- C9: reconciliation with at least one matched credential overrides
each of name, email and phone with the merged credential value whenever
the merge supplies one, keeps the stored value exactly when no matched
credential supplies the field, and always marks the updated record
verified. -/
theorem fetchAndPopulate_overrides (existing : Identity) (creds : List JSValue)
    (nowIso : String) (_hne : creds ≠ []) :
    ((mergeCredentialData creds).name.truthy = true →
      (applyPopulated existing creds nowIso).name = (mergeCredentialData creds).name) ∧
    ((∀ c ∈ creds, (extractIdentity c).name.truthy = false) →
      (applyPopulated existing creds nowIso).name = .str existing.name) ∧
    ((mergeCredentialData creds).email.truthy = true →
      (applyPopulated existing creds nowIso).email = (mergeCredentialData creds).email) ∧
    ((∀ c ∈ creds, (extractIdentity c).email.truthy = false) →
      (applyPopulated existing creds nowIso).email = jsOfOptStr existing.email) ∧
    ((mergeCredentialData creds).phone.truthy = true →
      (applyPopulated existing creds nowIso).phone = (mergeCredentialData creds).phone) ∧
    ((∀ c ∈ creds, (extractIdentity c).phone.truthy = false) →
      (applyPopulated existing creds nowIso).phone = jsOfOptStr existing.phone) ∧
    (applyPopulated existing creds nowIso).isVerified = true := by
  have hname : (mergeCredentialData creds).name =
      firstTruthy (creds.map (fun c => (extractIdentity c).name)) := by
    rw [mergeCredentialData, foldl_mergeStep_name]
    exact foldl_jsFirstFill_undefined _
  have hemail : (mergeCredentialData creds).email =
      firstTruthy (creds.map (fun c => (extractIdentity c).email)) := by
    rw [mergeCredentialData, foldl_mergeStep_email]
    exact foldl_jsFirstFill_undefined _
  have hphone : (mergeCredentialData creds).phone =
      firstTruthy (creds.map (fun c => (extractIdentity c).phone)) := by
    rw [mergeCredentialData, foldl_mergeStep_phone]
    exact foldl_jsFirstFill_undefined _
  refine ⟨?_, ?_, ?_, ?_, ?_, ?_, rfl⟩
  · intro h
    show jsOr (mergeCredentialData creds).name (.str existing.name) =
      (mergeCredentialData creds).name
    unfold jsOr
    rw [if_pos h]
  · intro hall
    have hm : (mergeCredentialData creds).name = .undefined := by
      rw [hname]
      apply firstTruthy_eq_undefined
      intro x hx
      obtain ⟨c, hc, rfl⟩ := List.mem_map.mp hx
      exact hall c hc
    show jsOr (mergeCredentialData creds).name (.str existing.name) = .str existing.name
    rw [hm]
    rfl
  · intro h
    show jsOr (mergeCredentialData creds).email (jsOfOptStr existing.email) =
      (mergeCredentialData creds).email
    unfold jsOr
    rw [if_pos h]
  · intro hall
    have hm : (mergeCredentialData creds).email = .undefined := by
      rw [hemail]
      apply firstTruthy_eq_undefined
      intro x hx
      obtain ⟨c, hc, rfl⟩ := List.mem_map.mp hx
      exact hall c hc
    show jsOr (mergeCredentialData creds).email (jsOfOptStr existing.email) =
      jsOfOptStr existing.email
    rw [hm]
    rfl
  · intro h
    show jsOr (mergeCredentialData creds).phone (jsOfOptStr existing.phone) =
      (mergeCredentialData creds).phone
    unfold jsOr
    rw [if_pos h]
  · intro hall
    have hm : (mergeCredentialData creds).phone = .undefined := by
      rw [hphone]
      apply firstTruthy_eq_undefined
      intro x hx
      obtain ⟨c, hc, rfl⟩ := List.mem_map.mp hx
      exact hall c hc
    show jsOr (mergeCredentialData creds).phone (jsOfOptStr existing.phone) =
      jsOfOptStr existing.phone
    rw [hm]
    rfl

/-- C9 witness: one matched credential supplying only a givenName; the
update takes the credential name over the stored one, keeps the stored
phone that no credential supplies, and marks the record verified. -/
theorem fetchAndPopulate_overrides_witness :
    (applyPopulated identityC9 [credC9] "2024-01-01T00:00:00.000Z").name = .str "New Name" ∧
    (applyPopulated identityC9 [credC9] "2024-01-01T00:00:00.000Z").phone = .str "+1234567890" ∧
    (applyPopulated identityC9 [credC9] "2024-01-01T00:00:00.000Z").isVerified = true := by
  have h := fetchAndPopulate_overrides identityC9 [credC9] "2024-01-01T00:00:00.000Z" (by simp)
  refine ⟨?_, ?_, h.2.2.2.2.2.2⟩
  · exact (h.1 rfl).trans rfl
  · refine (h.2.2.2.2.2.1 ?_).trans rfl
    intro c hc
    rw [List.mem_singleton.mp hc]
    rfl
